import Mathlib

/-!
Shallow embedding of the FastAPI record service defined in
`api_integration_pipeline.ipynb` (the `server.py` cell).

The service keeps a global in-memory dictionary `library` from integer ids
to user records and exposes three endpoints:

* `GET /`            — `healthcheck`, returns `{"status": "healthy"}`;
* `GET /user/{id}`   — `get_user`, returns the record or a 404;
* `POST /user`       — `create_user`, assigns `max(library.keys()) + 1`
                       as the new id and inserts the validated body.

Python dictionaries are modelled as association lists in insertion order
(`Store`), Python's `max` over the key view as `pyMax`, dictionary
assignment as `dictSet` (replace in place when the key exists, append
otherwise), and `dict.get` as `dictGet`.  JSON response bodies are flat
objects whose values are strings, integers or string arrays (`JVal`),
which covers every body the three endpoints produce.  A handler that lets
a Python exception escape (only `max` on an empty dict can) is modelled
as `none`.
-/

namespace E2EDemo

/-- The `UserIn` pydantic model from `server.py`: three required string
fields.  The stored value `user.dict()` carries exactly the same three
fields, so the same structure also models the records held in the store. -/
structure UserIn where
  name : String
  date : String
  service : String
deriving DecidableEq, Repr

/-- `user.dict()`: the record as a Python dict in field order. -/
def UserIn.dict (u : UserIn) : List (String × String) :=
  [("name", u.name), ("date", u.date), ("service", u.service)]

/-- A JSON value as produced by the three endpoints. -/
inductive JVal where
  | s : String → JVal
  | n : Int → JVal
  | arr : List String → JVal
deriving DecidableEq, Repr

/-- A flat JSON object. -/
abbrev JObj := List (String × JVal)

/-- An HTTP response: status code and JSON body. -/
structure Response where
  status : Nat
  body : JObj
deriving DecidableEq, Repr

/-- The record rendered as the JSON object FastAPI serialises it to. -/
def UserIn.toJObj (u : UserIn) : JObj :=
  u.dict.map (fun p => (p.1, JVal.s p.2))

/-- The in-memory store: a Python dict from int ids to records, kept in
insertion order. -/
abbrev Store := List (Int × UserIn)

/-- The global `library` dict, seeded with the single Alice record. -/
def library : Store :=
  [(111, ⟨"Alice", "2025-04-25", "DemoService"⟩)]

/-- `library.get(userid)`. -/
def dictGet (s : Store) (k : Int) : Option UserIn :=
  s.lookup k

/-- `library.keys()`. -/
def keys (s : Store) : List Int :=
  s.map Prod.fst

/-- `library[k] = v`: replace the binding in place when `k` is present,
append at the end otherwise (Python dict assignment preserves insertion
order). -/
def dictSet : Store → Int → UserIn → Store
  | [], k, v => [(k, v)]
  | (a, b) :: t, k, v =>
    if a = k then (k, v) :: t else (a, b) :: dictSet t k v

/-- Python's `max` over a list of ints; raises `ValueError` (here: `none`)
on an empty list. -/
def pyMax : List Int → Option Int
  | [] => none
  | x :: xs =>
    match pyMax xs with
    | none => some x
    | some m => some (max x m)

/-- `GET /`: `async def healthcheck(): return {"status": "healthy"}`. -/
def healthcheck : Response :=
  ⟨200, [("status", JVal.s "healthy")]⟩

/-- The response FastAPI builds from `HTTPException(404, "User not found")`. -/
def userNotFound : Response :=
  ⟨404, [("detail", JVal.s "User not found")]⟩

/-- `GET /user/{userid}`: look the id up with `library.get`; `if not user`
(the user is `None`, or is a falsy empty dict) raise the 404, else return
the record. -/
def get_user (s : Store) (userid : Int) : Response :=
  match dictGet s userid with
  | none => userNotFound
  | some user => if (user.dict).isEmpty then userNotFound else ⟨200, user.toJObj⟩

/-- `POST /user` body handler after validation:
`new_id = max(library.keys()) + 1; library[new_id] = user.dict();
return {"id": new_id, **user.dict()}`.  `none` models the uncaught
`ValueError` `max` raises on an empty dict. -/
def create_user (s : Store) (user : UserIn) : Option (Response × Store) :=
  match pyMax (keys s) with
  | none => none
  | some m =>
    some (⟨200, ("id", JVal.n (m + 1)) :: user.toJObj⟩, dictSet s (m + 1) user)

/-- A raw JSON value as it may arrive in a request body, before
validation. -/
inductive RawJson where
  | str : String → RawJson
  | int : Int → RawJson
  | bool : Bool → RawJson
  | null : RawJson
deriving DecidableEq, Repr

/-- A raw request body: a JSON object (`some fields`) or a non-object
body (`none`). -/
abbrev RawBody := Option (List (String × RawJson))

/-- Modelled from the spec: the framework-side body validation that
`class UserIn(BaseModel)` declares but pydantic/FastAPI implement (the
validation code is not part of this repository).  Reads field `k` of the
body when it is present as text: "a candidate record ... containing
`name`, `date`, `service` (all required, all text)". -/
def getStrField (body : RawBody) (k : String) : Option String :=
  match body with
  | none => none
  | some fields =>
    match fields.lookup k with
    | some (RawJson.str v) => some v
    | _ => none

/-- Modelled from the spec: the field-level detail of a validation error,
one entry per field that is missing or not text ("ValidationError —
malformed create payload (missing/wrong-typed field), surfaced as a 4xx
with field-level detail"). -/
def fieldErrs (body : RawBody) : List String :=
  (if (getStrField body "name").isSome then [] else ["name"]) ++
  (if (getStrField body "date").isSome then [] else ["date"]) ++
  (if (getStrField body "service").isSome then [] else ["service"])

/-- Modelled from the spec: validation of a create payload against the
`UserIn` model — succeed exactly when all three fields are present as
text, fail with field-level detail otherwise. -/
def validateUserIn (body : RawBody) : Except (List String) UserIn :=
  match getStrField body "name", getStrField body "date", getStrField body "service" with
  | some n, some d, some sv => Except.ok ⟨n, d, sv⟩
  | _, _, _ => Except.error (fieldErrs body)

/-- `POST /user` as seen over the wire: validate the raw body (a
validation failure is surfaced as a 422 with field-level detail and does
not touch the store), then run `create_user`. -/
def post_user (s : Store) (body : RawBody) : Option (Response × Store) :=
  match validateUserIn body with
  | Except.error errs => some (⟨422, [("detail", JVal.arr errs)]⟩, s)
  | Except.ok user => create_user s user

/-- A request to one of the three routes of the service. -/
inductive Request where
  | health
  | getUser (userid : Int)
  | postUser (body : RawBody)

/-- One request/response step of the server: the response produced and
the store afterwards (`none` models an escaped exception). -/
def handle (s : Store) : Request → Option (Response × Store)
  | Request.health => some (healthcheck, s)
  | Request.getUser userid => some (get_user s userid, s)
  | Request.postUser body => post_user s body

/-- The store states reachable from the seeded startup state by any
sequence of requests. -/
inductive Reachable : Store → Prop
  | init : Reachable library
  | step {s s' : Store} {r : Request} {resp : Response} :
      Reachable s → handle s r = some (resp, s') → Reachable s'

/-! ### Basic lemmas about the store operations -/

/-- A record dict always has its three fields, so it is never falsy. -/
theorem UserIn.dict_isEmpty (u : UserIn) : (u.dict).isEmpty = false :=
  rfl

/-- `pyMax` is `none` exactly on the empty list. -/
theorem pyMax_eq_none_iff (l : List Int) : pyMax l = none ↔ l = [] := by
  cases l with
  | nil => simp [pyMax]
  | cons x xs =>
    constructor
    · intro h
      cases hx : pyMax xs <;> simp [pyMax, hx] at h
    · intro h
      exact absurd h (by simp)

/-- A non-empty list has a `pyMax`. -/
theorem pyMax_isSome_of_ne_nil (l : List Int) (h : l ≠ []) :
    ∃ m, pyMax l = some m := by
  cases hl : pyMax l with
  | none => exact absurd ((pyMax_eq_none_iff l).mp hl) h
  | some m => exact ⟨m, rfl⟩

/-- Every member of the list is bounded by its `pyMax`. -/
theorem le_pyMax {l : List Int} {m a : Int} (h : pyMax l = some m)
    (ha : a ∈ l) : a ≤ m := by
  induction l generalizing m with
  | nil => simp at ha
  | cons x xs ih =>
    cases hx : pyMax xs with
    | none =>
      have hxs : xs = [] := (pyMax_eq_none_iff xs).mp hx
      subst hxs
      simp [pyMax] at h
      simp at ha
      omega
    | some m' =>
      simp [pyMax, hx] at h
      rcases List.mem_cons.mp ha with rfl | hmem
      · omega
      · have := ih hx hmem
        omega

/-- A key absent from the keys has no binding. -/
theorem lookup_eq_none_of_not_mem_keys {s : Store} {k : Int}
    (h : k ∉ keys s) : s.lookup k = none := by
  induction s with
  | nil => rfl
  | cons p t ih =>
    obtain ⟨a, b⟩ := p
    simp only [keys, List.map_cons, List.mem_cons] at h
    push_neg at h
    rw [List.lookup]
    have hka : (k == a) = false := by simp [h.1]
    simp only [hka]
    exact ih (by simpa [keys] using h.2)

/-- A key present in the keys has a binding. -/
theorem lookup_isSome_of_mem_keys {s : Store} {k : Int}
    (h : k ∈ keys s) : (s.lookup k).isSome := by
  induction s with
  | nil => simp [keys] at h
  | cons p t ih =>
    obtain ⟨a, b⟩ := p
    rw [List.lookup]
    by_cases hka : k = a
    · simp [hka]
    · have : (k == a) = false := by simp [hka]
      simp only [this]
      simp [keys, hka] at h
      exact ih (by simp [keys, h])

/-- Membership in the keys is exactly definedness of `dictGet`. -/
theorem dictGet_isSome_iff (s : Store) (k : Int) :
    (dictGet s k).isSome ↔ k ∈ keys s := by
  constructor
  · intro h
    by_contra hmem
    rw [dictGet, lookup_eq_none_of_not_mem_keys hmem] at h
    simp at h
  · exact lookup_isSome_of_mem_keys

/-- `dictSet` stores the value under the key. -/
theorem dictGet_dictSet_self (s : Store) (k : Int) (v : UserIn) :
    dictGet (dictSet s k v) k = some v := by
  induction s with
  | nil => simp [dictSet, dictGet, List.lookup]
  | cons p t ih =>
    obtain ⟨a, b⟩ := p
    by_cases hak : a = k
    · subst hak
      rw [dictSet, if_pos rfl, dictGet, List.lookup]
      simp
    · rw [dictSet, if_neg hak, dictGet, List.lookup]
      have hka : (k == a) = false := by simp [Ne.symm hak]
      simp only [hka]
      exact ih

/-- `dictSet` never produces an empty dict. -/
theorem dictSet_ne_nil (s : Store) (k : Int) (v : UserIn) :
    dictSet s k v ≠ [] := by
  cases s with
  | nil => simp [dictSet]
  | cons p t =>
    obtain ⟨a, b⟩ := p
    rw [dictSet]
    split <;> simp

/-- Unfolding `create_user` when the maximum key is known. -/
theorem create_user_eq {s : Store} (u : UserIn) {m : Int}
    (h : pyMax (keys s) = some m) :
    create_user s u =
      some (⟨200, ("id", JVal.n (m + 1)) :: u.toJObj⟩, dictSet s (m + 1) u) := by
  rw [create_user, h]

/-- `get_user` returns the stored record when the lookup succeeds. -/
theorem get_user_of_dictGet_some {s : Store} {userid : Int} {u : UserIn}
    (h : dictGet s userid = some u) :
    get_user s userid = ⟨200, u.toJObj⟩ := by
  rw [get_user, h]
  simp [UserIn.dict_isEmpty]

/-! ### Claim theorems -/

/-- C1: for every create call on a non-empty store, the service computes
the new id as one greater than the current maximum key, inserts the
record under that id, returns the full record including the assigned id,
and the returned id is strictly greater than every id present before the
call. -/
theorem create_user_assigns_succ_max (s : Store) (u : UserIn)
    (h : keys s ≠ []) :
    ∃ m, pyMax (keys s) = some m ∧
      create_user s u =
        some (⟨200, ("id", JVal.n (m + 1)) :: u.toJObj⟩, dictSet s (m + 1) u) ∧
      dictGet (dictSet s (m + 1) u) (m + 1) = some u ∧
      ∀ k ∈ keys s, k < m + 1 := by
  obtain ⟨m, hm⟩ := pyMax_isSome_of_ne_nil _ h
  exact ⟨m, hm, create_user_eq u hm, dictGet_dictSet_self s (m + 1) u,
    fun k hk => by have := le_pyMax hm hk; omega⟩

/-- Witness for C1 at the seeded store. -/
theorem create_user_assigns_succ_max_witness :
    ∃ m, pyMax (keys library) = some m ∧
      create_user library ⟨"Bob", "2025-01-01", "X"⟩ =
        some (⟨200, ("id", JVal.n (m + 1)) :: UserIn.toJObj ⟨"Bob", "2025-01-01", "X"⟩⟩,
          dictSet library (m + 1) ⟨"Bob", "2025-01-01", "X"⟩) ∧
      dictGet (dictSet library (m + 1) ⟨"Bob", "2025-01-01", "X"⟩) (m + 1) =
        some ⟨"Bob", "2025-01-01", "X"⟩ ∧
      ∀ k ∈ keys library, k < m + 1 :=
  create_user_assigns_succ_max library ⟨"Bob", "2025-01-01", "X"⟩ (by decide)

/-- C2: get-by-id returns the stored record as JSON with status 200
exactly when the id is a key of the store, and the 404 "User not found"
response exactly when the id is absent. -/
theorem get_user_found_iff (s : Store) (userid : Int) :
    (∀ u, dictGet s userid = some u → get_user s userid = ⟨200, u.toJObj⟩) ∧
    (dictGet s userid = none → get_user s userid = userNotFound) ∧
    ((get_user s userid).status = 200 ↔ userid ∈ keys s) ∧
    (get_user s userid = userNotFound ↔ userid ∉ keys s) := by
  cases hg : dictGet s userid with
  | none =>
    have hmem : userid ∉ keys s := by
      intro hm
      have := lookup_isSome_of_mem_keys hm
      rw [← dictGet, hg] at this
      simp at this
    have hget : get_user s userid = userNotFound := by
      rw [get_user, hg]
    refine ⟨?_, fun _ => hget, ?_, ?_⟩
    · intro u hu
      exact absurd hu (by simp)
    · rw [hget]
      simp [userNotFound, hmem]
    · rw [hget]
      simp [hmem]
  | some u =>
    have hmem : userid ∈ keys s := by
      rw [← dictGet_isSome_iff, hg]
      rfl
    have hget : get_user s userid = ⟨200, u.toJObj⟩ :=
      get_user_of_dictGet_some hg
    refine ⟨?_, ?_, ?_, ?_⟩
    · intro u' hu'
      cases Option.some.inj hu'
      exact hget
    · intro hn
      exact absurd hn (by simp)
    · rw [hget]
      simp [hmem]
    · rw [hget]
      constructor
      · intro hEq
        simp [userNotFound] at hEq
      · intro hn
        exact absurd hmem hn

/-- Witness for C2: the seeded id 111 is found, the absent id 5 is not. -/
theorem get_user_found_iff_witness :
    get_user library 111 =
      ⟨200, [("name", JVal.s "Alice"), ("date", JVal.s "2025-04-25"),
        ("service", JVal.s "DemoService")]⟩ ∧
    get_user library 5 = userNotFound :=
  ⟨(get_user_found_iff library 111).1 ⟨"Alice", "2025-04-25", "DemoService"⟩ rfl,
    (get_user_found_iff library 5).2.1 rfl⟩

/-- The Bob payload of the round-trip property. -/
def bobIn : UserIn := ⟨"Bob", "2025-01-01", "X"⟩

/-- C3: creating the Bob record and then fetching the returned id yields
a 200 response carrying the same three fields, and the create response
itself is those fields plus the id. -/
theorem create_then_get_roundtrip (s : Store) (h : keys s ≠ []) :
    ∃ id s', create_user s bobIn =
        some (⟨200, ("id", JVal.n id) :: bobIn.toJObj⟩, s') ∧
      get_user s' id = ⟨200, bobIn.toJObj⟩ := by
  obtain ⟨m, hm⟩ := pyMax_isSome_of_ne_nil _ h
  exact ⟨m + 1, dictSet s (m + 1) bobIn, create_user_eq bobIn hm,
    get_user_of_dictGet_some (dictGet_dictSet_self s (m + 1) bobIn)⟩

/-- Witness for C3 at the seeded store. -/
theorem create_then_get_roundtrip_witness :
    ∃ id s', create_user library bobIn =
        some (⟨200, ("id", JVal.n id) :: bobIn.toJObj⟩, s') ∧
      get_user s' id = ⟨200, bobIn.toJObj⟩ :=
  create_then_get_roundtrip library (by decide)

/-- C4: the startup store holds exactly the one seeded record under key
111 (Alice, 2025-04-25, DemoService), and get-by-id for 111 returns it. -/
theorem initial_store_seeded :
    library = [(111, ⟨"Alice", "2025-04-25", "DemoService"⟩)] ∧
    get_user library 111 =
      ⟨200, [("name", JVal.s "Alice"), ("date", JVal.s "2025-04-25"),
        ("service", JVal.s "DemoService")]⟩ :=
  ⟨rfl, rfl⟩

/-- C5: for every store state, the health check returns status 200 with
exactly the payload `{"status": "healthy"}`, never fails, and does not
depend on the store contents. -/
theorem healthcheck_constant (s : Store) :
    handle s Request.health =
      some (⟨200, [("status", JVal.s "healthy")]⟩, s) :=
  rfl

/-- C6: the health check and get-by-id (found or not) leave the store
exactly unchanged; only the create operation mutates it. -/
theorem reads_leave_store_unchanged (s : Store) (userid : Int) :
    handle s Request.health = some (healthcheck, s) ∧
    handle s (Request.getUser userid) = some (get_user s userid, s) :=
  ⟨rfl, rfl⟩

/-- C7 counterexample: create does NOT reject a payload with empty name
and service — the validated-body handler accepts it with status 200 and
stores the record with its empty fields. -/
theorem create_accepts_empty_fields_counterexample :
    create_user library ⟨"", "2025-01-01", ""⟩ =
      some (⟨200, [("id", JVal.n 112), ("name", JVal.s ""),
          ("date", JVal.s "2025-01-01"), ("service", JVal.s "")]⟩,
        [(111, ⟨"Alice", "2025-04-25", "DemoService"⟩),
         (112, ⟨"", "2025-01-01", ""⟩)]) ∧
    dictGet [(111, ⟨"Alice", "2025-04-25", "DemoService"⟩),
        (112, ⟨"", "2025-01-01", ""⟩)] 112 =
      some ⟨"", "2025-01-01", ""⟩ ∧
    post_user library (some [("name", RawJson.str ""),
        ("date", RawJson.str "2025-01-01"), ("service", RawJson.str "")]) =
      some (⟨200, [("id", JVal.n 112), ("name", JVal.s ""),
          ("date", JVal.s "2025-01-01"), ("service", JVal.s "")]⟩,
        [(111, ⟨"Alice", "2025-04-25", "DemoService"⟩),
         (112, ⟨"", "2025-01-01", ""⟩)]) := by
  refine ⟨?_, by decide, ?_⟩ <;> rfl

/-- C7 amended: the seeded record has non-empty name and service, but
create performs no non-emptiness check — it accepts every payload of
three strings, empty name or service included, and stores it verbatim. -/
theorem seed_nonempty_create_unvalidated (s : Store) (u : UserIn)
    (h : keys s ≠ []) :
    (∃ r, dictGet library 111 = some r ∧ r.name ≠ "" ∧ r.service ≠ "") ∧
    ∃ m s', pyMax (keys s) = some m ∧
      create_user s u = some (⟨200, ("id", JVal.n (m + 1)) :: u.toJObj⟩, s') ∧
      dictGet s' (m + 1) = some u := by
  obtain ⟨m, hm⟩ := pyMax_isSome_of_ne_nil _ h
  exact ⟨⟨⟨"Alice", "2025-04-25", "DemoService"⟩, rfl, by decide, by decide⟩,
    m, dictSet s (m + 1) u, hm, create_user_eq u hm,
    dictGet_dictSet_self s (m + 1) u⟩

/-- Witness for the amended C7, with the empty-fields payload itself. -/
theorem seed_nonempty_create_unvalidated_witness :
    (∃ r, dictGet library 111 = some r ∧ r.name ≠ "" ∧ r.service ≠ "") ∧
    ∃ m s', pyMax (keys library) = some m ∧
      create_user library ⟨"", "2025-01-01", ""⟩ =
        some (⟨200, ("id", JVal.n (m + 1)) :: UserIn.toJObj ⟨"", "2025-01-01", ""⟩⟩, s') ∧
      dictGet s' (m + 1) = some ⟨"", "2025-01-01", ""⟩ :=
  seed_nonempty_create_unvalidated library ⟨"", "2025-01-01", ""⟩ (by decide)

/-- A create body is well formed when all three fields are present as
text. -/
def wellFormedBody (body : RawBody) : Prop :=
  (getStrField body "name").isSome ∧ (getStrField body "date").isSome ∧
    (getStrField body "service").isSome

/-- C8: a malformed create payload (missing or wrong-typed field) fails
with a 4xx carrying non-empty field-level detail and leaves the store
alone; validation succeeds exactly when all three fields are present as
text, in which case the record is inserted. -/
theorem post_user_validation (s : Store) (body : RawBody)
    (h : keys s ≠ []) :
    (∀ errs, validateUserIn body = Except.error errs →
      errs ≠ [] ∧
        post_user s body = some (⟨422, [("detail", JVal.arr errs)]⟩, s)) ∧
    (∀ u, validateUserIn body = Except.ok u →
      ∃ m, post_user s body =
          some (⟨200, ("id", JVal.n (m + 1)) :: u.toJObj⟩, dictSet s (m + 1) u) ∧
        dictGet (dictSet s (m + 1) u) (m + 1) = some u) ∧
    ((∃ u, validateUserIn body = Except.ok u) ↔ wellFormedBody body) := by
  obtain ⟨m, hm⟩ := pyMax_isSome_of_ne_nil _ h
  refine ⟨?_, ?_, ?_⟩
  · intro errs herr
    constructor
    · intro hnil
      subst hnil
      cases hn : getStrField body "name" with
      | none =>
        rw [validateUserIn, hn] at herr
        simp [fieldErrs, hn] at herr
      | some n =>
        cases hd : getStrField body "date" with
        | none =>
          rw [validateUserIn, hn, hd] at herr
          simp [fieldErrs, hd] at herr
        | some d =>
          cases hs : getStrField body "service" with
          | none =>
            rw [validateUserIn, hn, hd, hs] at herr
            simp [fieldErrs, hs] at herr
          | some sv =>
            rw [validateUserIn, hn, hd, hs] at herr
            cases herr
    · rw [post_user, herr]
  · intro u hok
    rw [post_user, hok]
    exact ⟨m, create_user_eq u hm, dictGet_dictSet_self s (m + 1) u⟩
  · constructor
    · rintro ⟨u, hok⟩
      cases hn : getStrField body "name" with
      | none => rw [validateUserIn, hn] at hok; cases hok
      | some n =>
        cases hd : getStrField body "date" with
        | none => rw [validateUserIn, hn, hd] at hok; cases hok
        | some d =>
          cases hs : getStrField body "service" with
          | none => rw [validateUserIn, hn, hd, hs] at hok; cases hok
          | some sv => exact ⟨by simp [hn], by simp [hd], by simp [hs]⟩
    · rintro ⟨hn, hd, hs⟩
      obtain ⟨n, hn⟩ := Option.isSome_iff_exists.mp hn
      obtain ⟨d, hd⟩ := Option.isSome_iff_exists.mp hd
      obtain ⟨sv, hs⟩ := Option.isSome_iff_exists.mp hs
      exact ⟨⟨n, d, sv⟩, by rw [validateUserIn, hn, hd, hs]⟩

/-- Witness for C8: a payload with a wrong-typed name and missing date
and service is rejected with field-level detail; the well-formed Carol
payload passes validation and is inserted. -/
theorem post_user_validation_witness :
    (∀ errs, validateUserIn (some [("name", RawJson.int 3)]) = Except.error errs →
      errs ≠ [] ∧
        post_user library (some [("name", RawJson.int 3)]) =
          some (⟨422, [("detail", JVal.arr errs)]⟩, library)) ∧
    (∀ u, validateUserIn (some [("name", RawJson.int 3)]) = Except.ok u →
      ∃ m, post_user library (some [("name", RawJson.int 3)]) =
          some (⟨200, ("id", JVal.n (m + 1)) :: u.toJObj⟩, dictSet library (m + 1) u) ∧
        dictGet (dictSet library (m + 1) u) (m + 1) = some u) ∧
    ((∃ u, validateUserIn (some [("name", RawJson.int 3)]) = Except.ok u) ↔
      wellFormedBody (some [("name", RawJson.int 3)])) :=
  post_user_validation library (some [("name", RawJson.int 3)]) (by decide)

/-- A handled request on a non-empty store leaves the store non-empty. -/
theorem handle_preserves_ne_nil {s s' : Store} {r : Request} {resp : Response}
    (hstep : handle s r = some (resp, s')) (hs : s ≠ []) : s' ≠ [] := by
  cases r with
  | health =>
    rw [handle] at hstep
    cases Option.some.inj hstep
    exact hs
  | getUser userid =>
    rw [handle] at hstep
    cases Option.some.inj hstep
    exact hs
  | postUser body =>
    rw [handle, post_user] at hstep
    cases hv : validateUserIn body with
    | error errs =>
      rw [hv] at hstep
      cases Option.some.inj hstep
      exact hs
    | ok u =>
      rw [hv] at hstep
      unfold create_user at hstep
      cases hmx : pyMax (keys s) with
      | none =>
        rw [hmx] at hstep
        cases hstep
      | some m =>
        rw [hmx] at hstep
        cases Option.some.inj hstep
        exact dictSet_ne_nil s (m + 1) u

/-- C10: from the seeded startup state, every reachable store is
non-empty, so the maximum-key computation of create is always defined
and create never hits its empty-store failure. -/
theorem reachable_store_never_empty (s : Store) (h : Reachable s) :
    keys s ≠ [] ∧ ∀ u, (create_user s u).isSome := by
  have hne : s ≠ [] := by
    induction h with
    | init => decide
    | step hprev hstep ih => exact handle_preserves_ne_nil hstep ih
  have hk : keys s ≠ [] := by
    cases s with
    | nil => exact absurd rfl hne
    | cons p t => simp [keys]
  refine ⟨hk, fun u => ?_⟩
  obtain ⟨m, hm⟩ := pyMax_isSome_of_ne_nil _ hk
  rw [create_user_eq u hm]
  rfl

/-- Witness for C10 at the seeded startup state. -/
theorem reachable_store_never_empty_witness :
    keys library ≠ [] ∧ ∀ u, (create_user library u).isSome :=
  reachable_store_never_empty library Reachable.init

end E2EDemo
